import Mathlib

/-!
Shallow embedding of the Question Generation & Grading Engine of the
quiz-planner-backend repository.

Sources embedded:
* `src/backend/ai/question_generator.py` — `QuestionGenerator.extract_key_concepts`,
  `QuestionGenerator.generate_questions`, `QuestionGenerator._generate_fallback_questions`.
* `src/backend/controllers/quiz_controller.py` — the grading loop of
  `submit_quiz_attempt` (lines 277-331).

Modelling conventions:
* Python strings are `String`; Python `str.lower()` is `pyLower` (character-wise
  `Char.toLower`, the definition of `String.toLower` spelled out on the
  character list so that the kernel can evaluate it), `str.strip()` is
  `pyStrip`, `str.split()` is `pySplit`, `len` is `String.length` /
  `List.length`.
* The regular-expression character class `\w` is modelled as ASCII
  alphanumeric or underscore (`Char.isAlphanum` / `_`), `\s` as `Char.isWhitespace`.
* A Python dict used as an insertion-ordered association container is a
  `List (String × Nat)` built exactly like the source loop (`bump` below).
* `sorted(..., key=lambda x: x[1], reverse=True)` (a stable descending sort on
  the count) is `List.insertionSort countGe`, which is the stable descending
  insertion sort on the second component.
* `random.shuffle` is an opaque permutation passed in as a `shuffle` parameter.
* The remote (Gemini) tier performs network I/O; its outcome is passed in as an
  oracle `remoteResult : Option (List Question)` (`none` = no API key configured
  or the request/parse raised, `some qs` = the parsed question list).
* Python code that would raise (`ZeroDivisionError` from `i % 0` on an empty
  list) is modelled with `Option`: `none` means the call raises.
-/

namespace QuizPlanner

/-! ### Concept extraction (`extract_key_concepts`, question_generator.py lines 17-35) -/

/-- The fixed stop-word set of `extract_key_concepts` (lines 23-26). -/
def stopwords : List String :=
  ["the", "a", "an", "and", "in", "on", "at", "to", "for", "of", "with",
   "is", "are", "am", "was", "were", "be", "been", "being", "by", "that",
   "this", "these", "those", "it", "its", "as", "from", "has", "have",
   "had", "not", "or", "but", "if", "then", "else", "when", "where", "how"]

/-- Python `str.lower()`: lower-case every character. -/
def pyLower (s : String) : String :=
  (s.data.map Char.toLower).asString

/-- Python `str.strip()`: drop leading and trailing whitespace. -/
def pyStrip (s : String) : String :=
  (((s.data.dropWhile Char.isWhitespace).reverse.dropWhile Char.isWhitespace).reverse).asString

/-- Worker for `pySplit`: split a character list on whitespace runs,
accumulating the (reversed) current word. -/
def pySplitAux : List Char → List Char → List String
  | [], acc => if acc.isEmpty then [] else [acc.reverse.asString]
  | c :: cs, acc =>
    if c.isWhitespace then
      if acc.isEmpty then pySplitAux cs [] else acc.reverse.asString :: pySplitAux cs []
    else pySplitAux cs (c :: acc)

/-- Python `str.split()` with no separator: split on runs of whitespace,
discarding empty fragments and leading/trailing whitespace. -/
def pySplit (s : String) : List String :=
  pySplitAux s.data []

/-- A character kept by `re.sub(r'[^\w\s]', '', text)`: word characters
(alphanumeric or underscore) and whitespace survive, everything else is removed. -/
def keepChar (c : Char) : Bool :=
  c.isAlphanum || c == '_' || c.isWhitespace

/-- Lines 19-28 of question_generator.py: lower-case, strip non-word/non-space
characters, split on whitespace, and keep words that are not stop-words and
longer than 3. -/
def filtered_words (text : String) : List String :=
  let t := ((pyLower text).data.filter keepChar).asString
  let words := pySplit t
  words.filter (fun w => !(stopwords.contains w) && decide (3 < w.length))

/-- One step of the counting loop (line 32):
`word_counts[word] = word_counts.get(word, 0) + 1` on an insertion-ordered dict. -/
def bump : List (String × Nat) → String → List (String × Nat)
  | [], w => [(w, 1)]
  | (x, c) :: rest, w =>
    if x = w then (x, c + 1) :: rest else (x, c) :: bump rest w

/-- Lines 29-32: the insertion-ordered word-count table. -/
def word_counts (ws : List String) : List (String × Nat) :=
  ws.foldl bump []

/-- The comparison used by `sorted(word_counts.items(), key=lambda x: x[1],
reverse=True)`: descending on the count. -/
def countGe (a b : String × Nat) : Prop :=
  b.2 ≤ a.2

instance : DecidableRel countGe :=
  fun a b => Nat.decLe b.2 a.2

instance : IsTotal (String × Nat) countGe :=
  ⟨fun a b => (Nat.le_total b.2 a.2).imp id id⟩

instance : IsTrans (String × Nat) countGe :=
  ⟨fun _ _ _ h1 h2 => Nat.le_trans h2 h1⟩

/-- `extract_key_concepts` (lines 17-35): frequency analysis returning the top
`num_concepts` words, most frequent first, ties broken by first occurrence
(Python `sorted` is stable; the insertion-ordered dict supplies first-occurrence
order). -/
def extract_key_concepts (text : String) (num_concepts : Nat := 10) : List String :=
  let sorted_words := (word_counts (filtered_words text)).insertionSort countGe
  (sorted_words.take num_concepts).map Prod.fst

/-! ### Questions and the fallback generator -/

/-- A JSON answer value as it occurs in `correct_answer` and in submitted
answers: a string or a boolean. -/
inductive Ans where
  | str : String → Ans
  | bool : Bool → Ans
deriving DecidableEq, Repr

/-- A generated question record (the dict shape produced by
`_generate_fallback_questions` and expected from the remote tier).
`options` is `[]` for non-multiple-choice questions, whose dicts omit the key. -/
structure Question where
  type : String
  question : String
  options : List String := []
  correct_answer : Ans
  explanation : String
deriving DecidableEq, Repr

/-- Line 133-134: `if len(key_concepts) < 4: key_concepts = key_concepts * 4`. -/
def expandConcepts (key_concepts : List String) : List String :=
  if key_concepts.length < 4 then
    key_concepts ++ (key_concepts ++ (key_concepts ++ key_concepts))
  else key_concepts

/-- The body of the loop at lines 140-169, building question `i` from its type
and anchor concept; `ks` is the (possibly expanded) concept list used for the
multiple-choice distractors `ks[(i+j+1) % len(ks)]`, `shuffle` stands for
`random.shuffle`. -/
def buildFallbackQuestion (shuffle : List String → List String)
    (ks : List String) (i : Nat) (q_type concept : String) : Question :=
  if q_type = "multiple_choice" then
    { type := "multiple_choice"
      question := "Which of these is most relevant to the study material?"
      options := shuffle (concept ::
        (List.range 3).map (fun j => ks.getD ((i + j + 1) % ks.length) ""))
      correct_answer := Ans.str concept
      explanation := s!"{concept} was identified as a key concept in the material." }
  else if q_type = "true_false" then
    { type := "true_false"
      question := s!"The concept \x27{concept}\x27 is important in this context."
      correct_answer := Ans.bool true
      explanation := s!"The material specifically mentions \x27{concept}\x27 as important." }
  else
    { type := "short_answer"
      question := s!"Explain the significance of \x27{concept}\x27 in this context."
      correct_answer := Ans.str s!"{concept} is a key concept that..."
      explanation := s!"A good answer would explain how {concept} relates to the main topic." }

/-- `_generate_fallback_questions` (lines 129-171).  For `num_questions ≥ 1` the
loop body indexes `question_types[i % len(question_types)]` and
`key_concepts[i % len(key_concepts)]`; with an empty list Python raises
`ZeroDivisionError`, modelled as `none`. -/
def generate_fallback_questions (shuffle : List String → List String)
    (key_concepts : List String) (num_questions : Nat)
    (question_types : List String) : Option (List Question) :=
  let ks := expandConcepts key_concepts
  if 1 ≤ num_questions && (ks.isEmpty || question_types.isEmpty) then none
  else some ((List.range num_questions).map (fun i =>
    buildFallbackQuestion shuffle ks i
      (question_types.getD (i % question_types.length) "")
      (ks.getD (i % ks.length) "")))

/-- `generate_questions` (lines 37-54).  `remoteResult = none` models a missing
API key or a raised/failed remote call; `some qs` a parsed remote reply.  When
the remote tier yields a non-empty list of at least `num_questions` questions it
is truncated with `questions[:num_questions]`; otherwise the fallback runs on
`extract_key_concepts(content)` (default `num_concepts = 10`). -/
def generate_questions (shuffle : List String → List String)
    (remoteResult : Option (List Question)) (content : String)
    (num_questions : Nat) (question_types : List String) : Option (List Question) :=
  match remoteResult with
  | some questions =>
    if !questions.isEmpty && decide (num_questions ≤ questions.length) then
      some (questions.take num_questions)
    else
      generate_fallback_questions shuffle (extract_key_concepts content 10)
        num_questions question_types
  | none =>
    generate_fallback_questions shuffle (extract_key_concepts content 10)
      num_questions question_types

/-! ### Grading (`submit_quiz_attempt`, quiz_controller.py lines 277-331) -/

/-- Python `==` on answer values: strings compare to strings, booleans to
booleans, mixed types are unequal. -/
def ansEq : Ans → Ans → Bool
  | .str a, .str b => a == b
  | .bool a, .bool b => a == b
  | _, _ => false

/-- Lines 302-309: normalize an answer value to a boolean for true/false
grading.  A string maps to `true` iff it equals `"true"` after lower-casing;
a boolean is used as-is (`bool(user_answer)` is the identity on booleans). -/
def normBool : Ans → Bool
  | .str v => pyLower v == "true"
  | .bool v => v

/-- Lines 296-317: decide whether a submitted answer is correct for one
question, by question type. -/
def gradeQuestion (q : Question) (a : Ans) : Bool :=
  if q.type == "multiple_choice" then
    ansEq a q.correct_answer
  else if q.type == "true_false" then
    normBool a == normBool q.correct_answer
  else if q.type == "short_answer" then
    match a, q.correct_answer with
    | .str ua, .str ca => pyStrip (pyLower ua) == pyStrip (pyLower ca)
    | _, _ => ansEq a q.correct_answer
  else false

/-- One per-question grading record (lines 287-292 and 322-327). -/
structure QResult where
  question_id : Nat
  correct : Bool
  correct_answer : Ans
  explanation : String
deriving DecidableEq, Repr

/-- The graded attempt (lines 334-344 of the stored attempt document, restricted
to the grading outputs). -/
structure AttemptResult where
  score : Nat
  total_questions : Nat
  percentage : ℚ
  results : List QResult

/-- `answers.get(str(i))`: a submitted-answers JSON object is a list of
key/value pairs whose values may be JSON `null` (`Option Ans`); `dict.get`
returns `None` both when the key is absent and when its stored value is null. -/
def dictGet (answers : List (String × Option Ans)) (k : String) : Option Ans :=
  match answers.lookup k with
  | some v => v
  | none => none

/-- The grading record produced for question `q` at index `i` given the result
of `answers.get(str(i))` (lines 283-327). -/
def gradeRecord (i : Nat) (q : Question) : Option Ans → QResult
  | none => ⟨i, false, q.correct_answer, q.explanation⟩
  | some a => ⟨i, gradeQuestion q a, q.correct_answer, q.explanation⟩

/-- The grading loop (lines 278-327): walk the questions with their enumeration
index, accumulating the score and the per-question results in order. -/
def gradeLoop (answers : List (String × Option Ans)) :
    Nat → List Question → Nat × List QResult
  | _, [] => (0, [])
  | i, q :: qs =>
    let rest := gradeLoop answers (i + 1) qs
    match dictGet answers (toString i) with
    | none => (rest.1, gradeRecord i q none :: rest.2)
    | some a =>
      ((if gradeQuestion q a then 1 else 0) + rest.1,
        gradeRecord i q (some a) :: rest.2)

/-- The grading part of `submit_quiz_attempt` (lines 277-331): grade every
question, then `percentage = (score / total_questions) * 100 if
total_questions > 0 else 0`. -/
def submit_quiz_attempt (questions : List Question)
    (answers : List (String × Option Ans)) : AttemptResult :=
  let graded := gradeLoop answers 0 questions
  let total := questions.length
  { score := graded.1
    total_questions := total
    percentage := if 0 < total then ((graded.1 : ℚ) / (total : ℚ)) * 100 else 0
    results := graded.2 }

/-- Default used only to state `List.getD` facts about question lists. -/
def defaultQuestion : Question :=
  { type := "", question := "", correct_answer := Ans.bool false, explanation := "" }

/-- Default used only to state `List.getD` facts about result lists. -/
def defaultQResult : QResult :=
  { question_id := 0, correct := false, correct_answer := Ans.bool false, explanation := "" }

/-! ### Structural lemmas about the grading loop -/

lemma gradeLoop_nil (answers : List (String × Option Ans)) (i : Nat) :
    gradeLoop answers i [] = (0, []) := rfl

lemma gradeLoop_cons (answers : List (String × Option Ans)) (i : Nat)
    (q : Question) (qs : List Question) :
    gradeLoop answers i (q :: qs) =
      ((match dictGet answers (toString i) with
        | none => 0
        | some a => if gradeQuestion q a then 1 else 0) + (gradeLoop answers (i + 1) qs).1,
       gradeRecord i q (dictGet answers (toString i)) :: (gradeLoop answers (i + 1) qs).2) := by
  show (match dictGet answers (toString i) with
        | none => ((gradeLoop answers (i + 1) qs).1,
            gradeRecord i q none :: (gradeLoop answers (i + 1) qs).2)
        | some a => ((if gradeQuestion q a then 1 else 0) + (gradeLoop answers (i + 1) qs).1,
            gradeRecord i q (some a) :: (gradeLoop answers (i + 1) qs).2)) = _
  cases dictGet answers (toString i) <;> simp

lemma gradeLoop_score_eq_countP (answers : List (String × Option Ans)) :
    ∀ (qs : List Question) (i : Nat),
      (gradeLoop answers i qs).1 = (gradeLoop answers i qs).2.countP (fun r => r.correct)
  | [], _ => rfl
  | q :: qs, i => by
    rw [gradeLoop_cons]
    simp only [List.countP_cons, gradeLoop_score_eq_countP answers qs (i + 1)]
    cases hd : dictGet answers (toString i) with
    | none => simp [gradeRecord]
    | some a =>
      simp only [gradeRecord]
      by_cases hc : gradeQuestion q a <;> simp [hc, Nat.add_comm]

lemma gradeLoop_results_length (answers : List (String × Option Ans)) :
    ∀ (qs : List Question) (i : Nat), (gradeLoop answers i qs).2.length = qs.length
  | [], _ => rfl
  | q :: qs, i => by
    rw [gradeLoop_cons]
    simp [gradeLoop_results_length answers qs (i + 1)]

lemma gradeLoop_results_getD (answers : List (String × Option Ans)) :
    ∀ (qs : List Question) (i0 k : Nat), k < qs.length →
      (gradeLoop answers i0 qs).2.getD k defaultQResult
        = gradeRecord (i0 + k) (qs.getD k defaultQuestion)
            (dictGet answers (toString (i0 + k)))
  | [], _, k, hk => absurd hk (by simp)
  | q :: qs, i0, 0, _ => by
    rw [gradeLoop_cons]; simp
  | q :: qs, i0, k + 1, hk => by
    have hk' : k < qs.length := by
      simp only [List.length_cons] at hk
      omega
    have harith : i0 + (k + 1) = (i0 + 1) + k := by omega
    rw [gradeLoop_cons]
    simp only [List.getD_cons_succ]
    rw [harith, gradeLoop_results_getD answers qs (i0 + 1) k hk']

/-! ### Claims C4-C7, C10 about the grading algorithm -/

/-- C4: For every quiz and submitted-answer mapping, grading produces `score`
equal to the count of per-question results with `correct = true`, and
`percentage` equal to `100 * score / total_questions`, with `percentage = 0`
(and no error, no division by zero — the function is total) when
`total_questions = 0`. -/
theorem C4_score_and_percentage (questions : List Question)
    (answers : List (String × Option Ans)) :
    (submit_quiz_attempt questions answers).score
      = (submit_quiz_attempt questions answers).results.countP (fun r => r.correct) ∧
    (submit_quiz_attempt questions answers).total_questions = questions.length ∧
    (submit_quiz_attempt questions answers).percentage
      = (if (submit_quiz_attempt questions answers).total_questions = 0 then 0
         else 100 * ((submit_quiz_attempt questions answers).score : ℚ)
              / ((submit_quiz_attempt questions answers).total_questions : ℚ)) := by
  refine ⟨gradeLoop_score_eq_countP answers questions 0, rfl, ?_⟩
  simp only [submit_quiz_attempt]
  rcases Nat.eq_zero_or_pos questions.length with h | h
  · simp [h]
  · rw [if_pos h, if_neg (Nat.pos_iff_ne_zero.mp h)]
    ring

/-- C5: For every `true_false` question, grading normalizes both the submitted
answer and the stored correct answer to booleans — a boolean is used as-is, a
string maps to `true` exactly when it equals `"true"` case-insensitively — and
marks the question correct iff the two normalized booleans are equal; submitted
`"TRUE"`, `"true"` and boolean `true` are equivalent. -/
theorem C5_true_false_normalization (q : Question) (h : q.type = "true_false") :
    (∀ a, gradeQuestion q a = (normBool a == normBool q.correct_answer)) ∧
    (∀ v, normBool (Ans.bool v) = v) ∧
    (∀ s, normBool (Ans.str s) = true ↔ pyLower s = "true") ∧
    gradeQuestion q (Ans.str "TRUE") = gradeQuestion q (Ans.bool true) ∧
    gradeQuestion q (Ans.str "true") = gradeQuestion q (Ans.bool true) := by
  have hg : ∀ a, gradeQuestion q a = (normBool a == normBool q.correct_answer) := by
    intro a
    simp [gradeQuestion, h]
  refine ⟨hg, fun v => rfl, fun s => by simp [normBool], ?_, ?_⟩
  · rw [hg, hg, show normBool (Ans.str "TRUE") = normBool (Ans.bool true) from by decide]
  · rw [hg, hg, show normBool (Ans.str "true") = normBool (Ans.bool true) from by decide]

/-- C5 witness: on a concrete `true_false` question, submitted `"TRUE"` grades
the same as submitted boolean `true`. -/
theorem C5_witness :
    gradeQuestion { type := "true_false", question := "s?",
                    correct_answer := Ans.bool true, explanation := "e" } (Ans.str "TRUE")
      = gradeQuestion { type := "true_false", question := "s?",
                        correct_answer := Ans.bool true, explanation := "e" } (Ans.bool true) :=
  (C5_true_false_normalization _ rfl).2.2.2.1

/-- C6: For every `short_answer` question, if both the submitted answer and the
stored correct answer are strings, grading marks the question correct iff they
are equal after lower-casing and trimming leading/trailing whitespace; if
either side is not a string, correctness is raw equality.  In particular
submitted `" paris "` is correct when `correct_answer = "Paris"`. -/
theorem C6_short_answer_normalization (q : Question) (h : q.type = "short_answer") :
    (∀ ua ca, q.correct_answer = Ans.str ca →
        (gradeQuestion q (Ans.str ua) = true ↔ pyStrip (pyLower ua) = pyStrip (pyLower ca))) ∧
    (∀ v, gradeQuestion q (Ans.bool v) = ansEq (Ans.bool v) q.correct_answer) ∧
    (∀ ua v, q.correct_answer = Ans.bool v →
        gradeQuestion q (Ans.str ua) = ansEq (Ans.str ua) (Ans.bool v)) ∧
    (q.correct_answer = Ans.str "Paris" → gradeQuestion q (Ans.str " paris ") = true) := by
  have hss : ∀ ua ca, q.correct_answer = Ans.str ca →
      gradeQuestion q (Ans.str ua) = (pyStrip (pyLower ua) == pyStrip (pyLower ca)) := by
    intro ua ca hca
    simp [gradeQuestion, h, hca]
  refine ⟨fun ua ca hca => ?_, fun v => ?_, fun ua v hca => ?_, fun hca => ?_⟩
  · rw [hss ua ca hca]
    simp
  · cases hca : q.correct_answer <;> simp [gradeQuestion, h, hca]
  · simp [gradeQuestion, h, hca]
  · rw [hss _ "Paris" hca]
    decide

/-- C6 witness: `" paris "` is graded correct against stored `"Paris"`. -/
theorem C6_witness :
    gradeQuestion { type := "short_answer", question := "capital?",
                    correct_answer := Ans.str "Paris", explanation := "e" }
        (Ans.str " paris ") = true :=
  (C6_short_answer_normalization _ rfl).2.2.2 rfl

/-- C7: For every question index whose string key is absent from the
submitted-answers mapping, grading records that question as `correct = false`
together with the stored correct answer and explanation, and never raises an
error (`submit_quiz_attempt` is a total function); the remaining questions are
still graded normally and the score counts only the answered-and-correct ones
(every result flagged `correct = true` comes from a present answer). -/
theorem C7_unanswered_is_wrong (questions : List Question)
    (answers : List (String × Option Ans)) (i : Nat)
    (hi : i < questions.length)
    (habs : answers.lookup (toString i) = none) :
    (submit_quiz_attempt questions answers).results.getD i defaultQResult
      = { question_id := i, correct := false,
          correct_answer := (questions.getD i defaultQuestion).correct_answer,
          explanation := (questions.getD i defaultQuestion).explanation } ∧
    (submit_quiz_attempt questions answers).score
      = (submit_quiz_attempt questions answers).results.countP (fun r => r.correct) ∧
    (∀ j, j < questions.length →
      (submit_quiz_attempt questions answers).results.getD j defaultQResult
        = gradeRecord j (questions.getD j defaultQuestion)
            (dictGet answers (toString j))) := by
  refine ⟨?_, gradeLoop_score_eq_countP answers questions 0, fun j hj => ?_⟩
  · have := gradeLoop_results_getD answers questions 0 i hi
    simp only [Nat.zero_add] at this
    show (gradeLoop answers 0 questions).2.getD i defaultQResult = _
    rw [this, dictGet, habs]
    rfl
  · have := gradeLoop_results_getD answers questions 0 j hj
    simpa using this

/-- C7 witness: in a three-question quiz where only question 0 is answered,
question 1 is recorded as unanswered/incorrect with its stored answer and
explanation. -/
theorem C7_witness :
    (submit_quiz_attempt
        [{ type := "multiple_choice", question := "q1?", options := ["Option 1", "Option 2"],
           correct_answer := Ans.str "Option 1", explanation := "e1" },
         { type := "true_false", question := "q2?",
           correct_answer := Ans.bool true, explanation := "e2" },
         { type := "short_answer", question := "q3?",
           correct_answer := Ans.str "Paris", explanation := "e3" }]
        [("0", some (Ans.str "Option 1"))]).results.getD 1 defaultQResult
      = { question_id := 1, correct := false,
          correct_answer := Ans.bool true, explanation := "e2" } :=
  (C7_unanswered_is_wrong _ _ 1 (by decide) (by decide)).1

/-- C10: a question whose string index key is present in the submitted-answers
mapping but whose value is null (`none`) is graded identically to an absent
key: it is recorded as unanswered with `correct = false` and is never compared
against the stored correct answer. -/
theorem C10_null_is_unanswered (questions : List Question)
    (answers : List (String × Option Ans)) (i : Nat)
    (hi : i < questions.length)
    (hnull : answers.lookup (toString i) = some none) :
    (submit_quiz_attempt questions answers).results.getD i defaultQResult
      = { question_id := i, correct := false,
          correct_answer := (questions.getD i defaultQuestion).correct_answer,
          explanation := (questions.getD i defaultQuestion).explanation } := by
  have := gradeLoop_results_getD answers questions 0 i hi
  simp only [Nat.zero_add] at this
  show (gradeLoop answers 0 questions).2.getD i defaultQResult = _
  rw [this, dictGet, hnull]
  rfl

/-- C10 witness: an explicit null answer for question 0 yields the unanswered
record for that question. -/
theorem C10_witness :
    (submit_quiz_attempt
        [{ type := "multiple_choice", question := "q1?", options := ["Option 1", "Option 2"],
           correct_answer := Ans.str "Option 1", explanation := "e1" }]
        [("0", none)]).results.getD 0 defaultQResult
      = { question_id := 0, correct := false,
          correct_answer := Ans.str "Option 1", explanation := "e1" } :=
  C10_null_is_unanswered _ _ 0 (by decide) (by decide)

/-! ### Structural lemmas about the fallback generator -/

lemma expandConcepts_ne_nil {c : List String} (hc : c ≠ []) : expandConcepts c ≠ [] := by
  unfold expandConcepts
  split <;> simp [hc]

lemma fallback_eq_some (shuffle : List String → List String)
    (key_concepts : List String) (num_questions : Nat) (question_types : List String)
    (hc : key_concepts ≠ []) (ht : question_types ≠ []) :
    generate_fallback_questions shuffle key_concepts num_questions question_types
      = some ((List.range num_questions).map (fun i =>
          buildFallbackQuestion shuffle (expandConcepts key_concepts) i
            (question_types.getD (i % question_types.length) "")
            ((expandConcepts key_concepts).getD
              (i % (expandConcepts key_concepts).length) ""))) := by
  have h1 : (expandConcepts key_concepts).isEmpty = false := by
    simp [List.isEmpty_iff, expandConcepts_ne_nil hc]
  have h2 : question_types.isEmpty = false := by
    simp [List.isEmpty_iff, ht]
  simp [generate_fallback_questions, h1, h2]

lemma range_map_getD {α : Type} (f : Nat → α) (n i : Nat) (h : i < n) (d : α) :
    ((List.range n).map f).getD i d = f i := by
  rw [List.getD_eq_getElem _ _ (by simpa using h)]
  simp

lemma quad_getD_mod (c : List String) (r : Nat) (hr : r < 4 * c.length) :
    (c ++ (c ++ (c ++ c))).getD r "" = c.getD (r % c.length) "" := by
  by_cases h1 : r < c.length
  · rw [List.getD_append _ _ _ _ h1, Nat.mod_eq_of_lt h1]
  · have h1' : c.length ≤ r := Nat.le_of_not_lt h1
    rw [List.getD_append_right _ _ _ _ h1', Nat.mod_eq_sub_mod h1']
    by_cases h2 : r - c.length < c.length
    · rw [List.getD_append _ _ _ _ h2, Nat.mod_eq_of_lt h2]
    · have h2' : c.length ≤ r - c.length := Nat.le_of_not_lt h2
      rw [List.getD_append_right _ _ _ _ h2', Nat.mod_eq_sub_mod h2']
      by_cases h3 : r - c.length - c.length < c.length
      · rw [List.getD_append _ _ _ _ h3, Nat.mod_eq_of_lt h3]
      · have h3' : c.length ≤ r - c.length - c.length := Nat.le_of_not_lt h3
        rw [List.getD_append_right _ _ _ _ h3', Nat.mod_eq_sub_mod h3']
        have h4 : r - c.length - c.length - c.length < c.length := by omega
        rw [Nat.mod_eq_of_lt h4]

/-- Cyclically indexing the expanded concept list is the same as cyclically
indexing the original concept list: `(key_concepts * 4)[i % (4*L)] =
key_concepts[i % L]`. -/
lemma expandConcepts_getD_mod (c : List String) (hc : c ≠ []) (k : Nat) :
    (expandConcepts c).getD (k % (expandConcepts c).length) ""
      = c.getD (k % c.length) "" := by
  have hL : 0 < c.length := List.length_pos.mpr hc
  unfold expandConcepts
  split
  · have hlen : (c ++ (c ++ (c ++ c))).length = 4 * c.length := by
      simp only [List.length_append]
      omega
    rw [hlen]
    have hdvd : c.length ∣ 4 * c.length := ⟨4, by ring⟩
    rw [← Nat.mod_mod_of_dvd k hdvd]
    exact quad_getD_mod c _ (Nat.mod_lt _ (by omega))
  · rfl

/-! ### Claims C1, C2, C3, C9 about question generation -/

/-- C2 counterexample: with an empty concept list and one requested question the
fallback raises `ZeroDivisionError` at `key_concepts[i % len(key_concepts)]`
(the code never substitutes a placeholder concept: `[] * 4 == []`). -/
theorem C2_counterexample :
    generate_fallback_questions (fun l => l) [] 1 ["multiple_choice"] = none := by
  rfl

/-- C2 (amended): the fallback generator is total and returns exactly
`num_questions` questions for every non-empty concept list and non-empty
`question_types`; for an empty concept list (and `num_questions ≥ 1`) it fails
instead of substituting a placeholder concept. -/
theorem C2_fallback_total (shuffle : List String → List String)
    (key_concepts : List String) (num_questions : Nat) (question_types : List String)
    (hc : key_concepts ≠ []) (ht : question_types ≠ []) :
    ∃ qs, generate_fallback_questions shuffle key_concepts num_questions question_types
        = some qs ∧ qs.length = num_questions :=
  ⟨_, fallback_eq_some shuffle key_concepts num_questions question_types hc ht, by simp⟩

/-- C2 witness: a singleton concept list generates any requested number of
questions. -/
theorem C2_witness :
    ∃ qs, generate_fallback_questions (fun l => l) ["cell"] 5 ["true_false"]
        = some qs ∧ qs.length = 5 :=
  C2_fallback_total (fun l => l) ["cell"] 5 ["true_false"] (by decide) (by decide)

/-- The remote tier satisfied the orchestrator's acceptance test:
`questions and len(questions) >= num_questions`. -/
def remoteSufficient : Option (List Question) → Nat → Prop
  | some qs, n => qs ≠ [] ∧ n ≤ qs.length
  | none, _ => False

/-- C1 counterexample: for `content = ""` (no extractable concepts) with the
remote tier unavailable, `generate_questions` raises (`none`) instead of
returning one question. -/
theorem C1_counterexample :
    generate_questions (fun l => l) none "" 1 ["multiple_choice"] = none := by
  rfl

/-- C1 (amended): for every content string, `num_questions ≥ 1` and non-empty
`question_types`, `generate_questions` returns an ordered sequence of exactly
`num_questions` questions — the remote result is truncated to the first
`num_questions`, the fallback produces exactly `num_questions` — provided the
tier that actually runs can: either the remote tier returned a non-empty list
of at least `num_questions` questions, or the concepts extracted from `content`
are non-empty (otherwise the fallback raises on `i % 0`). -/
theorem C1_generate_exact_count (shuffle : List String → List String)
    (remoteResult : Option (List Question)) (content : String)
    (num_questions : Nat) (question_types : List String)
    (_hn : 1 ≤ num_questions) (ht : question_types ≠ [])
    (hsrc : remoteSufficient remoteResult num_questions
            ∨ extract_key_concepts content 10 ≠ []) :
    ∃ qs, generate_questions shuffle remoteResult content num_questions question_types
        = some qs ∧ qs.length = num_questions := by
  have hfb : extract_key_concepts content 10 ≠ [] →
      ∃ qs, generate_fallback_questions shuffle (extract_key_concepts content 10)
          num_questions question_types = some qs ∧ qs.length = num_questions := by
    intro hx
    exact ⟨_, fallback_eq_some shuffle _ _ _ hx ht, by simp⟩
  cases remoteResult with
  | none =>
    rcases hsrc with hs | hx
    · exact absurd hs (by simp [remoteSufficient])
    · simpa [generate_questions] using hfb hx
  | some rqs =>
    by_cases hok : (!rqs.isEmpty && decide (num_questions ≤ rqs.length)) = true
    · refine ⟨rqs.take num_questions, ?_, ?_⟩
      · simp only [generate_questions]
        rw [if_pos hok]
      · simp only [Bool.and_eq_true, Bool.not_eq_true', decide_eq_true_eq] at hok
        simp [List.length_take]
        omega
    · have hbranch :
          generate_questions shuffle (some rqs) content num_questions question_types
            = generate_fallback_questions shuffle (extract_key_concepts content 10)
                num_questions question_types := by
        simp only [generate_questions]
        rw [if_neg hok]
      rcases hsrc with hs | hx
      · exfalso
        apply hok
        rcases hs with ⟨h1, h2⟩
        simp [List.isEmpty_iff, h1, h2]
      · rcases hfb hx with ⟨qs, hq, hlen⟩
        exact ⟨qs, hbranch.trans hq, hlen⟩

/-- C1 witness: with the remote tier unavailable and content yielding concepts,
exactly three questions are produced. -/
theorem C1_witness :
    ∃ qs, generate_questions (fun l => l) none "mitosis mitosis enzyme enzyme mitosis"
        3 ["multiple_choice", "true_false"] = some qs ∧ qs.length = 3 :=
  C1_generate_exact_count (fun l => l) none "mitosis mitosis enzyme enzyme mitosis"
    3 ["multiple_choice", "true_false"] (by decide) (by decide) (Or.inr (by decide))

/-- C9: for every question index `i`, the fallback generator assigns the type
`question_types[i % len(question_types)]` and the anchor concept
`concepts[i % len(concepts)]` — indexing the expanded (possibly quadruplicated)
list cyclically yields the same word as indexing the original list cyclically. -/
theorem C9_fallback_type_and_anchor (shuffle : List String → List String)
    (concepts : List String) (num_questions : Nat) (question_types : List String)
    (i : Nat) (hc : concepts ≠ []) (ht : question_types ≠ [])
    (hvalid : ∀ t ∈ question_types,
      t = "multiple_choice" ∨ t = "true_false" ∨ t = "short_answer")
    (hi : i < num_questions) :
    ∃ qs, generate_fallback_questions shuffle concepts num_questions question_types
        = some qs ∧
      qs.getD i defaultQuestion
        = buildFallbackQuestion shuffle (expandConcepts concepts) i
            (question_types.getD (i % question_types.length) "")
            (concepts.getD (i % concepts.length) "") ∧
      (qs.getD i defaultQuestion).type
        = question_types.getD (i % question_types.length) "" := by
  refine ⟨_, fallback_eq_some shuffle concepts num_questions question_types hc ht, ?_, ?_⟩
  · rw [range_map_getD _ _ _ hi, expandConcepts_getD_mod concepts hc i]
  · rw [range_map_getD _ _ _ hi]
    have hlt : i % question_types.length < question_types.length :=
      Nat.mod_lt _ (List.length_pos.mpr ht)
    have htmem : question_types.getD (i % question_types.length) "" ∈ question_types := by
      rw [List.getD_eq_getElem _ _ hlt]
      exact List.getElem_mem _
    rcases hvalid _ htmem with h | h | h <;> rw [h] <;> simp [buildFallbackQuestion]

/-- C9 witness: the §8 scenario — four concepts, four requested questions of
types multiple_choice, true_false, short_answer, multiple_choice; question 3
(0-based) is a multiple-choice question anchored at `"membrane"`. -/
theorem C9_witness :
    ∃ qs, generate_fallback_questions (fun l => l) ["mitosis", "enzyme", "cell", "membrane"]
        4 ["multiple_choice", "true_false", "short_answer", "multiple_choice"] = some qs ∧
      qs.getD 3 defaultQuestion
        = buildFallbackQuestion (fun l => l)
            (expandConcepts ["mitosis", "enzyme", "cell", "membrane"]) 3
            (["multiple_choice", "true_false", "short_answer",
              "multiple_choice"].getD (3 % 4) "")
            (["mitosis", "enzyme", "cell", "membrane"].getD (3 % 4) "") ∧
      (qs.getD 3 defaultQuestion).type
        = ["multiple_choice", "true_false", "short_answer",
           "multiple_choice"].getD (3 % 4) "" :=
  C9_fallback_type_and_anchor (fun l => l) ["mitosis", "enzyme", "cell", "membrane"]
    4 ["multiple_choice", "true_false", "short_answer", "multiple_choice"] 3
    (by decide) (by decide) (by decide) (by decide)

/-- C3 counterexample: with the two extracted concepts `["a", "b"]` the concept
list is quadruplicated and the single generated multiple-choice question has
`options = ["a", "b", "a", "b"]` — its correct answer `"a"` occurs twice, not
exactly once. -/
theorem C3_counterexample :
    ((generate_fallback_questions (fun l => l) ["a", "b"] 1 ["multiple_choice"]).getD []).map
        (fun q => (q.type, q.correct_answer, q.options.count "a"))
      = [("multiple_choice", Ans.str "a", 2)] := by
  rfl

/-- If `1 ≤ k < L` then shifting an index by `k` changes its residue mod `L`. -/
lemma add_mod_ne (L i k : Nat) (hk1 : 1 ≤ k) (hk2 : k < L) :
    (i + k) % L ≠ i % L := by
  intro h
  have hL : 0 < L := by omega
  have ha : i % L < L := Nat.mod_lt _ hL
  have hk' : k % L = k := Nat.mod_eq_of_lt hk2
  rw [Nat.add_mod, hk'] at h
  by_cases hlt : i % L + k < L
  · rw [Nat.mod_eq_of_lt hlt] at h
    omega
  · have hsub : (i % L + k) % L = i % L + k - L := by
      rw [Nat.mod_eq_sub_mod (by omega), Nat.mod_eq_of_lt (by omega)]
    rw [hsub] at h
    omega

/-- C3 (amended): every multiple-choice question produced by the fallback has
an options sequence of length 4 (hence ≥ 2) that contains its correct answer at
least once; when the fallback receives at least 4 pairwise-distinct concepts
(as extraction yields whenever it finds ≥ 4 concepts) the correct answer occurs
exactly once.  With fewer than 4 concepts the quadruplicated list makes the
correct answer occur more than once (see the counterexample). -/
theorem C3_mc_options_contain_answer (shuffle : List String → List String)
    (concepts : List String) (num_questions : Nat) (question_types : List String)
    (i : Nat) (qs : List Question)
    (hperm : ∀ l, (shuffle l).Perm l)
    (hgen : generate_fallback_questions shuffle concepts num_questions question_types
      = some qs)
    (hi : i < qs.length)
    (hmc : (qs.getD i defaultQuestion).type = "multiple_choice") :
    2 ≤ (qs.getD i defaultQuestion).options.length ∧
    ∃ s, (qs.getD i defaultQuestion).correct_answer = Ans.str s ∧
      1 ≤ (qs.getD i defaultQuestion).options.count s ∧
      (concepts.Nodup → 4 ≤ concepts.length →
        (qs.getD i defaultQuestion).options.count s = 1) := by
  simp only [generate_fallback_questions] at hgen
  split at hgen
  · exact absurd hgen (by simp)
  · replace hgen := Option.some.inj hgen
    subst hgen
    rw [List.length_map, List.length_range] at hi
    rw [range_map_getD _ _ _ hi] at hmc ⊢
    set ks := expandConcepts concepts with hks
    set t := question_types.getD (i % question_types.length) "" with htdef
    set c := ks.getD (i % ks.length) "" with hcdef
    have hbranch : t = "multiple_choice" := by
      by_cases h1 : t = "multiple_choice"
      · exact h1
      · by_cases h2 : t = "true_false" <;>
          simp [buildFallbackQuestion, h1, h2] at hmc
    have hq : buildFallbackQuestion shuffle ks i t c
        = { type := "multiple_choice"
            question := "Which of these is most relevant to the study material?"
            options := shuffle (c ::
              (List.range 3).map (fun j => ks.getD ((i + j + 1) % ks.length) ""))
            correct_answer := Ans.str c
            explanation := s!"{c} was identified as a key concept in the material." } := by
      rw [hbranch] at htdef ⊢
      simp [buildFallbackQuestion]
    rw [hq]
    set ds := (List.range 3).map (fun j => ks.getD ((i + j + 1) % ks.length) "") with hds
    have hlen : (shuffle (c :: ds)).length = 4 := by
      rw [(hperm (c :: ds)).length_eq]
      simp [hds]
    have hcount : (shuffle (c :: ds)).count c = ds.count c + 1 := by
      rw [(hperm (c :: ds)).count_eq, List.count_cons_self]
    refine ⟨?_, c, rfl, ?_, fun hnd h4 => ?_⟩
    · show 2 ≤ (shuffle (c :: ds)).length
      omega
    · show 1 ≤ (shuffle (c :: ds)).count c
      omega
    show (shuffle (c :: ds)).count c = 1
    have hksc : ks = concepts := by
      rw [hks]
      unfold expandConcepts
      rw [if_neg (by omega)]
    have hL : 0 < concepts.length := by omega
    have hzero : ds.count c = 0 := by
      rw [List.count_eq_zero]
      intro hmem
      rw [hds] at hmem
      rcases List.mem_map.mp hmem with ⟨j, hj, hval⟩
      rw [List.mem_range] at hj
      have hne : (i + j + 1) % ks.length ≠ i % ks.length := by
        rw [hksc]
        have : i + j + 1 = i + (j + 1) := by omega
        rw [this]
        exact add_mod_ne concepts.length i (j + 1) (by omega) (by omega)
      apply hne
      have hlt1 : (i + j + 1) % ks.length < ks.length :=
        Nat.mod_lt _ (by rw [hksc]; omega)
      have hlt2 : i % ks.length < ks.length :=
        Nat.mod_lt _ (by rw [hksc]; omega)
      have hval' : ks.getD ((i + j + 1) % ks.length) "" = ks.getD (i % ks.length) "" := by
        rw [hval, hcdef]
      rw [List.getD_eq_getElem _ _ hlt1, List.getD_eq_getElem _ _ hlt2] at hval'
      have hnd' : ks.Nodup := by rw [hksc]; exact hnd
      exact (hnd'.getElem_inj_iff).mp hval'
    rw [hcount, hzero]

/-- C3 witness: with four distinct concepts the generated multiple-choice
question's options contain the correct answer exactly once. -/
theorem C3_witness :
    2 ≤ ((((generate_fallback_questions (fun l => l)
          ["mitosis", "enzyme", "cell", "membrane"] 1 ["multiple_choice"]).getD []).getD 0
        defaultQuestion)).options.length ∧
    ∃ s, ((((generate_fallback_questions (fun l => l)
          ["mitosis", "enzyme", "cell", "membrane"] 1 ["multiple_choice"]).getD []).getD 0
        defaultQuestion)).correct_answer = Ans.str s ∧
      1 ≤ ((((generate_fallback_questions (fun l => l)
          ["mitosis", "enzyme", "cell", "membrane"] 1 ["multiple_choice"]).getD []).getD 0
        defaultQuestion)).options.count s ∧
      (["mitosis", "enzyme", "cell", "membrane"].Nodup →
        4 ≤ (["mitosis", "enzyme", "cell", "membrane"] : List String).length →
        ((((generate_fallback_questions (fun l => l)
            ["mitosis", "enzyme", "cell", "membrane"] 1 ["multiple_choice"]).getD []).getD 0
          defaultQuestion)).options.count s = 1) :=
  C3_mc_options_contain_answer (fun l => l)
    ["mitosis", "enzyme", "cell", "membrane"] 1 ["multiple_choice"] 0
    ((generate_fallback_questions (fun l => l)
        ["mitosis", "enzyme", "cell", "membrane"] 1 ["multiple_choice"]).getD [])
    (fun l => List.Perm.refl l) (by rfl) (by decide) (by rfl)

/-! ### Claim C8: the concept-extraction algorithm -/

/-- The first occurrences of the words of a list, in order of first occurrence
(the key order of a Python insertion-ordered dict). -/
def dedupFirst : List String → List String
  | [] => []
  | w :: ws => w :: dedupFirst (ws.filter (fun x => decide (x ≠ w)))
termination_by l => l.length
decreasing_by
  simp only [List.length_cons]
  exact Nat.lt_succ_of_le (List.length_filter_le _ _)

lemma bump_not_mem (acc : List (String × Nat)) (w : String)
    (h : w ∉ acc.map Prod.fst) : bump acc w = acc ++ [(w, 1)] := by
  induction acc with
  | nil => rfl
  | cons p rest ih =>
    obtain ⟨x, c⟩ := p
    simp only [List.map_cons, List.mem_cons, not_or] at h
    have hxw : ¬x = w := fun he => h.1 he.symm
    simp only [bump, if_neg hxw]
    rw [ih h.2, List.cons_append]

lemma map_fst_bump (acc : List (String × Nat)) (w : String) :
    (bump acc w).map Prod.fst
      = if w ∈ acc.map Prod.fst then acc.map Prod.fst
        else acc.map Prod.fst ++ [w] := by
  induction acc with
  | nil => simp [bump]
  | cons p rest ih =>
    obtain ⟨x, c⟩ := p
    by_cases hxw : x = w
    · subst hxw
      simp [bump]
    · have hwx : ¬w = x := fun he => hxw he.symm
      simp only [bump, if_neg hxw, List.map_cons, ih, List.mem_cons]
      by_cases hw : w ∈ rest.map Prod.fst
      · rw [if_pos hw, if_pos (Or.inr hw)]
      · rw [if_neg hw, if_neg (by simp [hwx, hw]), List.cons_append]

lemma lookup_bump (acc : List (String × Nat)) (w k : String) :
    (bump acc w).lookup k
      = if k = w then some (((acc.lookup w).getD 0) + 1) else acc.lookup k := by
  induction acc with
  | nil =>
    by_cases hk : k = w
    · subst hk
      simp [bump, List.lookup_cons]
    · have hb : (k == w) = false := by simp [hk]
      simp [bump, List.lookup_cons, hb, hk]
  | cons p rest ih =>
    obtain ⟨x, c⟩ := p
    by_cases hxw : x = w
    · subst hxw
      simp only [bump, if_pos rfl]
      by_cases hk : k = x
      · subst hk
        simp [List.lookup_cons]
      · have hb : (k == x) = false := by simp [hk]
        simp [List.lookup_cons, hb, hk]
    · have hwx : ¬w = x := fun he => hxw he.symm
      have hbwx : (w == x) = false := by simp [hwx]
      simp only [bump, if_neg hxw]
      by_cases hk : k = x
      · subst hk
        simp [List.lookup_cons, hxw, hbwx]
      · have hb : (k == x) = false := by simp [hk]
        simp only [List.lookup_cons, hb, ih, hbwx]

lemma foldl_bump_lookup : ∀ (ws : List String) (acc : List (String × Nat)) (k : String),
    (ws.foldl bump acc).lookup k
      = match acc.lookup k with
        | some c => some (c + ws.count k)
        | none => if k ∈ ws then some (ws.count k) else none
  | [], acc, k => by
    cases hl : acc.lookup k <;> simp [hl]
  | w :: ws, acc, k => by
    rw [List.foldl_cons, foldl_bump_lookup ws (bump acc w) k, lookup_bump]
    by_cases hk : k = w
    · subst hk
      rw [if_pos rfl]
      cases hl : acc.lookup k with
      | none =>
        simp only [hl, Option.getD_none, List.count_cons_self, List.mem_cons, true_or,
          if_true, Option.some.injEq]
        omega
      | some c =>
        simp only [hl, Option.getD_some, List.count_cons_self, Option.some.injEq]
        omega
    · rw [if_neg hk]
      have hbk : (k == w) = false := by simp [hk]
      have hwk : ¬w = k := fun he => hk he.symm
      have hcnt : (w :: ws).count k = ws.count k := by
        simp [List.count_cons, hbk, hwk]
      have hmem : k ∈ w :: ws ↔ k ∈ ws := by
        simp [List.mem_cons, hk]
      cases hl : acc.lookup k with
      | none => simp [hl, hcnt, hmem]
      | some c => simp [hl, hcnt]

lemma foldl_bump_map_fst : ∀ (ws : List String) (acc : List (String × Nat)),
    (ws.foldl bump acc).map Prod.fst
      = acc.map Prod.fst
        ++ dedupFirst (ws.filter (fun w => decide (w ∉ acc.map Prod.fst)))
  | [], acc => by simp [dedupFirst]
  | w :: ws, acc => by
    rw [List.foldl_cons, foldl_bump_map_fst ws (bump acc w), map_fst_bump, List.filter_cons]
    by_cases hw : w ∈ acc.map Prod.fst
    · rw [if_pos hw, if_neg (by simpa using hw)]
    · rw [if_neg hw, if_pos (by simpa using hw)]
      rw [dedupFirst]
      have hpred : (ws.filter (fun x => decide (x ∉ acc.map Prod.fst))).filter
            (fun x => decide (x ≠ w))
          = ws.filter (fun x => decide (x ∉ acc.map Prod.fst ++ [w])) := by
        rw [List.filter_filter]
        apply List.filter_congr
        intro x _
        by_cases hx1 : x = w <;> by_cases hx2 : x ∈ acc.map Prod.fst <;>
          simp [hx1, hx2, List.mem_append]
      rw [hpred, List.append_assoc, List.singleton_append]

lemma filter_orderedInsert (x : String × Nat) (l : List (String × Nat)) (c : Nat) :
    ((l.orderedInsert countGe x).filter (fun p => p.2 == c))
      = if x.2 = c then x :: l.filter (fun p => p.2 == c)
        else l.filter (fun p => p.2 == c) := by
  rw [List.orderedInsert_eq_take_drop, List.filter_append, List.filter_cons]
  have htw : (l.takeWhile fun b => decide ¬countGe x b).filter (fun p => p.2 == c)
      = if x.2 = c then [] else
        (l.takeWhile fun b => decide ¬countGe x b).filter (fun p => p.2 == c) := by
    by_cases hx : x.2 = c
    · rw [if_pos hx, List.filter_eq_nil_iff]
      intro a ha
      have hgt := List.mem_takeWhile_imp ha
      have h2 : ¬a.2 ≤ x.2 := by simpa [countGe] using hgt
      simp only [beq_iff_eq]
      omega
    · rw [if_neg hx]
  by_cases hx : x.2 = c
  · rw [if_pos hx, if_pos (by simpa using hx)]
    rw [htw, if_pos hx, List.nil_append]
    congr 1
    conv_rhs => rw [← List.takeWhile_append_dropWhile
      (p := fun b => decide ¬countGe x b) (l := l)]
    rw [List.filter_append, htw, if_pos hx, List.nil_append]
  · rw [if_neg hx, if_neg (by simpa using hx)]
    conv_rhs => rw [← List.takeWhile_append_dropWhile
      (p := fun b => decide ¬countGe x b) (l := l)]
    rw [List.filter_append]

lemma filter_insertionSort (l : List (String × Nat)) (c : Nat) :
    ((l.insertionSort countGe).filter (fun p => p.2 == c))
      = l.filter (fun p => p.2 == c) := by
  induction l with
  | nil => rfl
  | cons x xs ih =>
    rw [List.insertionSort, filter_orderedInsert, List.filter_cons]
    by_cases hx : x.2 = c
    · rw [if_pos hx, if_pos (by simpa using hx), ih]
    · rw [if_neg hx, if_neg (by simpa using hx), ih]

/-- C8: `extract_key_concepts` lower-cases the text, strips non-word/non-space
characters, splits on whitespace, discards stop-words and tokens of length
≤ 3 (all by definition of `filtered_words`), counts occurrences
(`word_counts`: keys in first-occurrence order, values the occurrence counts),
sorts by descending frequency with ties broken by first-occurrence order (the
sort is `Sorted countGe` and filtering any fixed count out of it preserves the
first-occurrence order of `word_counts`), and returns the top `max_concepts`
words; it is a pure function and empty input yields the empty sequence. -/
theorem C8_extract_key_concepts_spec :
    (∀ n, extract_key_concepts "" n = []) ∧
    (∀ text n, (extract_key_concepts text n).length ≤ n) ∧
    (∀ text n, extract_key_concepts text n =
      (((word_counts (filtered_words text)).insertionSort countGe).take n).map Prod.fst) ∧
    (∀ text, List.Sorted countGe
      ((word_counts (filtered_words text)).insertionSort countGe)) ∧
    (∀ text c, ((word_counts (filtered_words text)).insertionSort countGe).filter
          (fun p => p.2 == c)
        = (word_counts (filtered_words text)).filter (fun p => p.2 == c)) ∧
    (∀ ws, (word_counts ws).map Prod.fst = dedupFirst ws) ∧
    (∀ ws k, (word_counts ws).lookup k
        = if k ∈ ws then some (ws.count k) else none) := by
  refine ⟨?_, ?_, fun text n => rfl, fun text => List.sorted_insertionSort countGe _,
    fun text c => filter_insertionSort _ _, ?_, ?_⟩
  · intro n
    have h0 : word_counts (filtered_words "") = [] := rfl
    simp [extract_key_concepts, h0]
  · intro text n
    simp only [extract_key_concepts, List.length_map, List.length_take]
    omega
  · intro ws
    rw [word_counts, foldl_bump_map_fst]
    have : ws.filter (fun w => decide (w ∉ ([] : List (String × Nat)).map Prod.fst)) = ws := by
      simp
    rw [this, List.map_nil, List.nil_append]
  · intro ws k
    rw [word_counts, foldl_bump_lookup]
    simp

end QuizPlanner
